import Mathlib

/-!
Shallow embedding of the VmapVisualizer binary decoders
(`src/utils/BinaryReader.ts`, `src/parsers/vmtileParser.ts`,
`src/parsers/vmtileidxParser.ts` and the map/terrain decoder), together
with theorems settling the specification claims about them.

Modelling conventions:
* A byte buffer is a `List Nat` (a real `ArrayBuffer` has every entry `< 256`;
  theorems that need that fact carry it as a hypothesis).
* `BinaryReader` carries the buffer and the current offset, exactly like the
  TypeScript class (`view` + `offset`).
* Every `DataView` read throws a `RangeError` when the requested range leaves
  the buffer; this is the only exception the decoders can encounter, and it is
  modelled by `Option`/an `unexpectedEndOfData` error value.
* IEEE-754 `f32` fields are modelled by their little-endian 32-bit patterns
  (a `Nat`); the terrain decoder, whose height arithmetic is the subject of a
  numerical claim, works with exact rationals `ℚ` in place of JS numbers.
* JS strings produced by `TextDecoder` are modelled by the raw byte list that
  was decoded.
-/

/-! ## BinaryReader (src/utils/BinaryReader.ts) -/

/-- The `BinaryReader` class: a byte buffer (the `DataView`) plus the current
read `offset`. -/
structure BinaryReader where
  buffer : List Nat
  offset : Nat
deriving DecidableEq

/-- Core read primitive shared by every reading method: a `DataView` access of
`n` bytes at `offset` succeeds iff `offset + n ≤ byteLength`, yields those `n`
bytes, and advances `offset` by `n`; otherwise the JS side throws a
`RangeError` (modelled as `none`). -/
def takeN (r : BinaryReader) (n : Nat) : Option (List Nat × BinaryReader) :=
  if r.offset + n ≤ r.buffer.length then
    some ((r.buffer.drop r.offset).take n, ⟨r.buffer, r.offset + n⟩)
  else
    none

/-- Little-endian value of a byte list (used for u16/u32 and for f32 bit
patterns). -/
def leNat : List Nat → Nat
  | [] => 0
  | b :: rest => b + 256 * leNat rest

/-- `readUint8`. -/
def readUint8 (r : BinaryReader) : Option (Nat × BinaryReader) :=
  (takeN r 1).map fun x => (leNat x.1, x.2)

/-- `readUint16` (little-endian). -/
def readUint16 (r : BinaryReader) : Option (Nat × BinaryReader) :=
  (takeN r 2).map fun x => (leNat x.1, x.2)

/-- `readUint32` (little-endian). -/
def readUint32 (r : BinaryReader) : Option (Nat × BinaryReader) :=
  (takeN r 4).map fun x => (leNat x.1, x.2)

/-- `readFloat32`: reads 4 bytes; the float is modelled by its little-endian
32-bit pattern. -/
def readFloat32 (r : BinaryReader) : Option (Nat × BinaryReader) :=
  (takeN r 4).map fun x => (leNat x.1, x.2)

/-- A 3-vector of f32 values (each modelled by its bit pattern). -/
structure Vec3P where
  x : Nat
  y : Nat
  z : Nat
deriving DecidableEq

/-- `readVec3`: three consecutive `readFloat32`. -/
def readVec3 (r : BinaryReader) : Option (Vec3P × BinaryReader) :=
  (readFloat32 r).bind fun xr =>
  (readFloat32 xr.2).bind fun yr =>
  (readFloat32 yr.2).map fun zr => (⟨xr.1, yr.1, zr.1⟩, zr.2)

/-- `readString(length)`: reads `length` bytes (the `Uint8Array` view throws
iff the range leaves the buffer); the decoded JS string is modelled by the
byte list itself. -/
def readString (r : BinaryReader) (len : Nat) : Option (List Nat × BinaryReader) :=
  takeN r len

/-- The `/\0+$/` strip of `readFixedString`: remove the maximal trailing run
of zero bytes. -/
def rstripZeros (l : List Nat) : List Nat :=
  (l.reverse.dropWhile (fun b => b == 0)).reverse

/-- `readFixedString(length)`: `readString` then strip trailing NUL bytes. -/
def readFixedString (r : BinaryReader) (len : Nat) : Option (List Nat × BinaryReader) :=
  (readString r len).map fun x => (rstripZeros x.1, x.2)

/-- `readChunkId`: `readString(4)`, no NUL stripping. -/
def readChunkId (r : BinaryReader) : Option (List Nat × BinaryReader) :=
  readString r 4

/-- `skip(bytes)`: `this.offset += bytes` — no bounds check of any kind. -/
def skip (r : BinaryReader) (bytes : Nat) : BinaryReader :=
  ⟨r.buffer, r.offset + bytes⟩

/-- `seek(offset)`: `this.offset = offset` — no bounds check. -/
def seek (r : BinaryReader) (offset : Nat) : BinaryReader :=
  ⟨r.buffer, offset⟩

/-! ## Types and constants (src/types/vmap.ts) -/

/-- `VMAP_MAGIC = 'VMAP_4.E'` as bytes. -/
def VMAP_MAGIC : List Nat := [86, 77, 65, 80, 95, 52, 46, 69]

/-- `RAW_VMAP_MAGIC = 'VMAP04E'` as bytes. -/
def RAW_VMAP_MAGIC : List Nat := [86, 77, 65, 80, 48, 52, 69]

/-- Modelled from the spec: the constant `VMAP_MAGIC_VERSIONS` is imported by
`vmtileParser.ts` and `vmtileidxParser.ts` from `src/types/vmap.ts` but its
definition is missing from the sources provided; the spec says the tile
formats accept "a small fixed set of accepted version strings" and that there
are exactly two ("both accepted version-magic byte strings"), and the claim
sources point at the two magic constants of `src/types/vmap.ts`, so the set is
modelled as `[VMAP_MAGIC, RAW_VMAP_MAGIC]`. -/
def VMAP_MAGIC_VERSIONS : List (List Nat) := [VMAP_MAGIC, RAW_VMAP_MAGIC]

def MOD_HAS_BOUND : Nat := 1
def MOD_PARENT_SPAWN : Nat := 2
def MOD_PATH_ONLY : Nat := 4

/-- `AABox`. -/
structure AABoxP where
  low : Vec3P
  high : Vec3P
deriving DecidableEq

/-- `ModelSpawn` (f32 fields by bit pattern, strings by byte list). -/
structure ModelSpawn where
  flags : Nat
  adtId : Nat
  id : Nat
  position : Vec3P
  rotation : Vec3P
  scale : Nat
  bound : Option AABoxP
  name : List Nat
  isPathOnly : Bool
  isParentSpawn : Bool
  hasBound : Bool
deriving DecidableEq

/-- `VmTile`. -/
structure VmTile where
  magic : List Nat
  spawns : List ModelSpawn
deriving DecidableEq

/-- The only throwable low-level failure: a read past the end of the buffer
(`RangeError` from the `DataView`), i.e. `UnexpectedEndOfData`. -/
inductive LowErr where
  | unexpectedEndOfData
deriving DecidableEq

/-- The distinct failure messages `parseVmTile` can build:
`Invalid vmtile magic …` (carrying the magic it got), `Failed to parse spawn
${i}: ${e}` (carrying the zero-based record index and the wrapped cause) and
the outer `Failed to parse vmtile: ${e}`. -/
inductive VmErr where
  | badMagic (got : List Nat)
  | spawnFailed (index : Nat) (cause : LowErr)
  | topLevel (cause : LowErr)
deriving DecidableEq

/-- `ParseResult<T>`: success with data, or failure with an error. -/
inductive PResult (ε α : Type) where
  | success (data : α)
  | failure (err : ε)
deriving DecidableEq

/-! ## Tile Spawn decoder (src/parsers/vmtileParser.ts) -/

/-- `parseModelSpawn`: flags u8, adtId u8, id u32, position vec3, rotation
vec3, scale f32, then — iff `flags & MOD_HAS_BOUND` — bound (two vec3), then
u32 name length and the name bytes. -/
def parseModelSpawn (r : BinaryReader) : Option (ModelSpawn × BinaryReader) :=
  (readUint8 r).bind fun fr =>
  (readUint8 fr.2).bind fun ar =>
  (readUint32 ar.2).bind fun ir =>
  (readVec3 ir.2).bind fun pr =>
  (readVec3 pr.2).bind fun rr =>
  (readFloat32 rr.2).bind fun sr =>
  (if fr.1 &&& MOD_HAS_BOUND ≠ 0 then
      (readVec3 sr.2).bind fun lor =>
      (readVec3 lor.2).map fun hir => ((some ⟨lor.1, hir.1⟩ : Option AABoxP), hir.2)
    else
      some ((none : Option AABoxP), sr.2)).bind fun br =>
  (readUint32 br.2).bind fun nlr =>
  (readString nlr.2 nlr.1).map fun nr =>
  (⟨fr.1, ar.1, ir.1, pr.1, rr.1, sr.1, br.1, nr.1,
    (fr.1 &&& MOD_PATH_ONLY) != 0,
    (fr.1 &&& MOD_PARENT_SPAWN) != 0,
    (fr.1 &&& MOD_HAS_BOUND) != 0⟩, nr.2)

/-- The `for (let i = 0; i < numSpawns; i++)` loop of `parseVmTile`: decode
records sequentially; a record failure aborts the whole decode with the
failing record's zero-based index and the wrapped cause. -/
def spawnLoop : Nat → Nat → BinaryReader → PResult VmErr (List ModelSpawn)
  | 0, _, _ => .success []
  | n + 1, i, r =>
    match parseModelSpawn r with
    | none => .failure (.spawnFailed i .unexpectedEndOfData)
    | some sr =>
      match spawnLoop n (i + 1) sr.2 with
      | .failure e => .failure e
      | .success rest => .success (sr.1 :: rest)

/-- `parseVmTile`: 8-byte fixed magic (NUL-stripped) checked against
`VMAP_MAGIC_VERSIONS`, u32 spawn count, then the record loop. -/
def parseVmTile (buffer : List Nat) : PResult VmErr VmTile :=
  match readFixedString ⟨buffer, 0⟩ 8 with
  | none => .failure (.topLevel .unexpectedEndOfData)
  | some mr =>
    if mr.1 ∈ VMAP_MAGIC_VERSIONS then
      match readUint32 mr.2 with
      | none => .failure (.topLevel .unexpectedEndOfData)
      | some nr =>
        match spawnLoop nr.1 0 nr.2 with
        | .failure e => .failure e
        | .success spawns => .success ⟨mr.1, spawns⟩
    else
      .failure (.badMagic mr.1)

/-! ## World Model decoder (src/parsers/vmtileParser.ts — parseVmo part) -/

/-- Chunk tag 'VERT' as bytes. -/
def VERT_TAG : List Nat := [86, 69, 82, 84]

/-- Chunk tag 'TRIM' as bytes. -/
def TRIM_TAG : List Nat := [84, 82, 73, 77]

/-- Chunk tag 'MBIH' as bytes. -/
def MBIH_TAG : List Nat := [77, 66, 73, 72]

/-- Chunk tag 'LIQU' as bytes. -/
def LIQU_TAG : List Nat := [76, 73, 81, 85]

/-- `GroupModel` (f32 vertices by bit pattern). -/
structure GroupModel where
  bound : AABoxP
  mogpFlags : Nat
  groupWmoId : Nat
  vertices : List Nat
  indices : List Nat
deriving DecidableEq

/-- `readAABox`: two consecutive vec3 (low, high). -/
def readAABox (r : BinaryReader) : Option (AABoxP × BinaryReader) :=
  (readVec3 r).bind fun lor =>
  (readVec3 lor.2).map fun hir => (⟨lor.1, hir.1⟩, hir.2)

/-- A `for (let i = 0; i < n; i++) arr[i] = step()` read loop. -/
def readLoop (step : BinaryReader → Option (Nat × BinaryReader)) :
    Nat → BinaryReader → Option (List Nat × BinaryReader)
  | 0, r => some ([], r)
  | n + 1, r =>
    (step r).bind fun vr =>
    (readLoop step n vr.2).map fun lr => (vr.1 :: lr.1, lr.2)

/-- `skipBIH`: skip the 6-float bounds, read the u32 tree-node count and skip
that many u32 words, read the u32 object count and skip that many u32 words.
The `skip` calls are unchecked; only the two u32 reads can fail. -/
def skipBIH (r : BinaryReader) : Option BinaryReader :=
  let r1 := skip r (6 * 4)
  (readUint32 r1).bind fun tr =>
  let r2 := skip tr.2 (tr.1 * 4)
  (readUint32 r2).bind fun cr =>
  some (skip cr.2 (cr.1 * 4))

/-- The `TRIM` section of `parseGroupModel` (split out at the source's own
chunk boundary purely to keep elaboration tractable; inlining it reproduces
the source function): required `TRIM` tag, declared size (unused), u32
triangle count `t`, then `3·t` u32 index values. -/
def parseTrimChunk (r : BinaryReader) : Option (List Nat × BinaryReader) := do
  let (trimChunk, r1) ← readChunkId r
  if trimChunk = TRIM_TAG then
    let (_trimChunkSize, r2) ← readUint32 r1
    let (triCount, r3) ← readUint32 r2
    readLoop readUint32 (triCount * 3) r3
  else none

/-- The `MBIH` + `LIQU` tail of `parseGroupModel` (split out at the source's
own chunk boundary): required `MBIH` tag followed by a structural `skipBIH`,
then required `LIQU` tag with a declared size that is skipped when
positive. -/
def parseMbihLiquChunks (r : BinaryReader) : Option BinaryReader := do
  let (mbihChunk, r1) ← readChunkId r
  if mbihChunk = MBIH_TAG then
    let r2 ← skipBIH r1
    let (liquChunk, r3) ← readChunkId r2
    if liquChunk = LIQU_TAG then
      let (liquChunkSize, r4) ← readUint32 r3
      some (if liquChunkSize > 0 then skip r4 liquChunkSize else r4)
    else none
  else none

/-- `parseGroupModel`: AABox bound, mogpFlags u32, groupWmoId u32, required
`VERT` chunk (declared size unused, u32 vertex count); a vertex count of 0
returns immediately with empty vertices/indices; otherwise `3·v` f32
vertices, then the `TRIM` chunk and the `MBIH`/`LIQU` tail. -/
def parseGroupModel (r : BinaryReader) : Option (GroupModel × BinaryReader) := do
  let (bound, r1) ← readAABox r
  let (mogpFlags, r2) ← readUint32 r1
  let (groupWmoId, r3) ← readUint32 r2
  let (vertChunk, r4) ← readChunkId r3
  if vertChunk = VERT_TAG then
    let (_vertChunkSize, r5) ← readUint32 r4
    let (vertexCount, r6) ← readUint32 r5
    if vertexCount = 0 then
      some (⟨bound, mogpFlags, groupWmoId, [], []⟩, r6)
    else
      let (vertices, r7) ← readLoop readFloat32 (vertexCount * 3) r6
      let (indices, r8) ← parseTrimChunk r7
      let r9 ← parseMbihLiquChunks r8
      some (⟨bound, mogpFlags, groupWmoId, vertices, indices⟩, r9)
  else none

/-! ## Terrain decoder (mapParser: parseMapFile, isHole) -/

def MAP_MAGIC : List Nat := [77, 65, 80, 83]
def MAP_VERSION_MAGIC : Nat := 10
def MAP_HEIGHT_MAGIC : List Nat := [77, 72, 71, 84]
def MAP_HEIGHT_NO_HEIGHT : Nat := 1
def MAP_HEIGHT_AS_INT16 : Nat := 2
def MAP_HEIGHT_AS_INT8 : Nat := 4

/-- Exact rational value of an IEEE-754 binary32 bit pattern (finite values;
NaN/infinity patterns, which have no rational value, are mapped to 0 — no
claim depends on them). -/
def f32ValQ (p : Nat) : ℚ :=
  let s : Nat := p / 2 ^ 31 % 2
  let e : Nat := p / 2 ^ 23 % 2 ^ 8
  let m : Nat := p % 2 ^ 23
  if e = 255 then 0
  else
    let mag : ℚ :=
      if e = 0 then (m : ℚ) * (2 : ℚ) ^ (-(149 : ℤ))
      else ((2 ^ 23 + m : Nat) : ℚ) * (2 : ℚ) ^ ((e : ℤ) - 150)
    if s = 1 then -mag else mag

/-- The height-decoding section of `parseMapFile` (the body guarded by the
`MHGT` header), as a function of the already-read height flags and the
already-decoded `gridHeight`/`gridMaxHeight`: if the no-height bit (bit 0) is
set there is no height data; otherwise the int8 bit (bit 2) is tested first,
then the int16 bit (bit 1), else raw f32 heights; the integer encodings read
129·129 corner then 128·128 center raw values and rescale each by
`raw * multiplier + gridHeight` with
`multiplier = (gridMaxHeight - gridHeight) / maxRaw`. -/
def parseHeightValues (flags : Nat) (gridHeight gridMaxHeight : ℚ)
    (r : BinaryReader) : Option (Option (List ℚ × List ℚ) × BinaryReader) :=
  if flags &&& MAP_HEIGHT_NO_HEIGHT ≠ 0 then
    some (none, r)
  else if flags &&& MAP_HEIGHT_AS_INT8 ≠ 0 then
    (readLoop readUint8 (129 * 129) r).bind fun v9r =>
    (readLoop readUint8 (128 * 128) v9r.2).map fun v8r =>
      let multiplier := (gridMaxHeight - gridHeight) / 255
      (some (v9r.1.map fun v : Nat => (v : ℚ) * multiplier + gridHeight,
             v8r.1.map fun v : Nat => (v : ℚ) * multiplier + gridHeight), v8r.2)
  else if flags &&& MAP_HEIGHT_AS_INT16 ≠ 0 then
    (readLoop readUint16 (129 * 129) r).bind fun v9r =>
    (readLoop readUint16 (128 * 128) v9r.2).map fun v8r =>
      let multiplier := (gridMaxHeight - gridHeight) / 65535
      (some (v9r.1.map fun v : Nat => (v : ℚ) * multiplier + gridHeight,
             v8r.1.map fun v : Nat => (v : ℚ) * multiplier + gridHeight), v8r.2)
  else
    (readLoop readFloat32 (129 * 129) r).bind fun v9r =>
    (readLoop readFloat32 (128 * 128) v9r.2).map fun v8r =>
      (some (v9r.1.map f32ValQ, v8r.1.map f32ValQ), v8r.2)

/-- `MapFileHeader`. -/
structure MapFileHeader where
  mapMagic : List Nat
  versionMagic : Nat
  buildMagic : Nat
  areaMapOffset : Nat
  areaMapSize : Nat
  heightMapOffset : Nat
  heightMapSize : Nat
  liquidMapOffset : Nat
  liquidMapSize : Nat
  holesOffset : Nat
  holesSize : Nat
deriving DecidableEq

/-- `MapHeightHeader` (gridHeight/gridMaxHeight as exact rationals). -/
structure MapHeightHeader where
  heightMagic : List Nat
  flags : Nat
  gridHeight : ℚ
  gridMaxHeight : ℚ
deriving DecidableEq

/-- `TerrainData`. -/
structure TerrainData where
  header : MapFileHeader
  heightHeader : Option MapHeightHeader
  v9 : Option (List ℚ)
  v8 : Option (List ℚ)
  gridHeight : ℚ
  gridMaxHeight : ℚ
  holes : Option (List Nat)
  hasHeightData : Bool
  hasHoles : Bool
deriving DecidableEq

/-- The distinct failure messages of `parseMapFile`. -/
inductive MapErr where
  | badMagic (got : List Nat)
  | badVersion (got : Nat)
  | badHeightMagic (got : List Nat)
  | topLevel (cause : LowErr)
deriving DecidableEq

/-- The fixed file header of `parseMapFile` (split out to keep elaboration
tractable): `MAPS` magic, u32 version constant 10, then the nine u32 header
fields `buildMagic`, `areaMapOffset/Size`, `heightMapOffset/Size`,
`liquidMapOffset/Size`, `holesOffset/Size`. -/
def parseMapHeader (buffer : List Nat) : PResult MapErr (MapFileHeader × BinaryReader) :=
  match readFixedString ⟨buffer, 0⟩ 4 with
  | none => .failure (.topLevel .unexpectedEndOfData)
  | some mr =>
    if mr.1 = MAP_MAGIC then
      match readUint32 mr.2 with
      | none => .failure (.topLevel .unexpectedEndOfData)
      | some vr =>
        if vr.1 = MAP_VERSION_MAGIC then
          match readLoop readUint32 9 vr.2 with
          | none => .failure (.topLevel .unexpectedEndOfData)
          | some hr =>
            .success
              (⟨mr.1, vr.1, hr.1.getD 0 0, hr.1.getD 1 0, hr.1.getD 2 0,
                hr.1.getD 3 0, hr.1.getD 4 0, hr.1.getD 5 0, hr.1.getD 6 0,
                hr.1.getD 7 0, hr.1.getD 8 0⟩, hr.2)
        else .failure (.badVersion vr.1)
    else .failure (.badMagic mr.1)

/-- The height sub-section of `parseMapFile`, starting from the reader already
seeked to `heightMapOffset`: required `MHGT` magic, u32 flags, f32
`gridHeight` and `gridMaxHeight`, then the flag-selected height payload. -/
def parseHeightSection (r : BinaryReader) :
    PResult MapErr ((MapHeightHeader × Option (List ℚ × List ℚ)) × BinaryReader) :=
  match readFixedString r 4 with
  | none => .failure (.topLevel .unexpectedEndOfData)
  | some hmr =>
    if hmr.1 = MAP_HEIGHT_MAGIC then
      match readUint32 hmr.2 with
      | none => .failure (.topLevel .unexpectedEndOfData)
      | some fr =>
        match readFloat32 fr.2 with
        | none => .failure (.topLevel .unexpectedEndOfData)
        | some ghr =>
          match readFloat32 ghr.2 with
          | none => .failure (.topLevel .unexpectedEndOfData)
          | some gmr =>
            match parseHeightValues fr.1 (f32ValQ ghr.1) (f32ValQ gmr.1) gmr.2 with
            | none => .failure (.topLevel .unexpectedEndOfData)
            | some hvr =>
              .success ((⟨hmr.1, fr.1, f32ValQ ghr.1, f32ValQ gmr.1⟩, hvr.1), hvr.2)
    else .failure (.badHeightMagic hmr.1)

/-- `parseMapFile`: the fixed header, then (when `heightMapOffset` and
`heightMapSize` are both positive) an absolute `seek` to the height
sub-section, then (when `holesOffset` and `holesSize` are both positive) an
absolute `seek` to the 16·16·8-byte holes bitmap; assembles the `TerrainData`
with the −500 sentinel height range when the height section is absent. -/
def parseMapFile (buffer : List Nat) : PResult MapErr TerrainData :=
  match parseMapHeader buffer with
  | .failure e => .failure e
  | .success hdr =>
    let header := hdr.1
    let heightStep :
        PResult MapErr (Option (MapHeightHeader × Option (List ℚ × List ℚ)) × BinaryReader) :=
      if header.heightMapOffset > 0 ∧ header.heightMapSize > 0 then
        match parseHeightSection (seek hdr.2 header.heightMapOffset) with
        | .failure e => .failure e
        | .success hs => .success (some hs.1, hs.2)
      else .success (none, hdr.2)
    match heightStep with
    | .failure e => .failure e
    | .success hs =>
      let holesStep : PResult MapErr (Option (List Nat)) :=
        if header.holesOffset > 0 ∧ header.holesSize > 0 then
          match readLoop readUint8 (16 * 16 * 8) (seek hs.2 header.holesOffset) with
          | none => .failure (.topLevel .unexpectedEndOfData)
          | some hor => .success (some hor.1)
        else .success none
      match holesStep with
      | .failure e => .failure e
      | .success holes =>
        .success
          { header := header
            heightHeader := hs.1.map fun x => x.1
            v9 := hs.1.bind fun x => x.2.map fun p => p.1
            v8 := hs.1.bind fun x => x.2.map fun p => p.2
            gridHeight := match hs.1 with
              | some x => x.1.gridHeight
              | none => -500
            gridMaxHeight := match hs.1 with
              | some x => x.1.gridMaxHeight
              | none => -500
            holes := holes
            hasHeightData := match hs.1 with
              | some x => x.2.isSome
              | none => false
            hasHoles := holes.isSome }

/-- `isHole(holes, row, col)`: bit `col % 8` of byte
`holes[(row/8)*16*8 + (col/8)*8 + row%8]` (a JS out-of-range access yields
`undefined`, whose bitwise-and is 0, modelled by `getD _ 0`). -/
def isHole (holes : List Nat) (row col : Nat) : Bool :=
  let cellRow := row / 8
  let cellCol := col / 8
  let holeRow := row % 8
  let holeCol := col % 8
  (holes.getD (cellRow * 16 * 8 + cellCol * 8 + holeRow) 0) &&& (1 <<< holeCol) != 0

/-! ## Reader relations used by the transport lemmas -/

/-- The unread window of a reader. -/
def window (r : BinaryReader) : List Nat := r.buffer.drop r.offset

/-- Reader `r2` extends reader `r1`: `r2`'s offset is in bounds, and `r1`'s
unread window is a prefix of `r2`'s. -/
def RdExt (r1 r2 : BinaryReader) : Prop :=
  r2.offset ≤ r2.buffer.length ∧ window r1 <+: window r2

/-- Readers with structurally equal (and in-bounds) unread windows. -/
def RdEqW (r1 r2 : BinaryReader) : Prop :=
  r1.offset ≤ r1.buffer.length ∧ r2.offset ≤ r2.buffer.length ∧ window r1 = window r2

/-- A parser respects window extension: a successful parse transports to any
reader with an extended window, with the same value, and the readers left
behind are again in the extension relation. -/
def ExtStep (P : BinaryReader → Option (α × BinaryReader)) : Prop :=
  ∀ r1 r2 a r1', RdExt r1 r2 → P r1 = some (a, r1') →
    ∃ r2', P r2 = some (a, r2') ∧ RdExt r1' r2'

/-- Statement helper: run `parseModelSpawn` `k` times from a reader (the state
of the record loop after `k` successfully decoded records). -/
def iterateSpawns : Nat → BinaryReader → Option BinaryReader
  | 0, r => some r
  | k + 1, r => (parseModelSpawn r).bind fun sr => iterateSpawns k sr.2

/-! ## Reader lemmas -/

/-- Characterization of `takeN`. -/
theorem takeN_eq_some {r : BinaryReader} {n : Nat} {v : List Nat} {r' : BinaryReader} :
    takeN r n = some (v, r') ↔
      r.offset + n ≤ r.buffer.length ∧ v = (r.buffer.drop r.offset).take n ∧
        r' = ⟨r.buffer, r.offset + n⟩ := by
  unfold takeN
  split
  next h =>
    simp only [Option.some.injEq, Prod.mk.injEq]
    constructor
    · rintro ⟨rfl, rfl⟩
      exact ⟨h, rfl, rfl⟩
    · rintro ⟨-, rfl, rfl⟩
      exact ⟨rfl, rfl⟩
  next h =>
    constructor
    · intro hh
      cases hh
    · rintro ⟨h1, -, -⟩
      exact absurd h1 h

theorem takeN_eq_none {r : BinaryReader} {n : Nat} :
    takeN r n = none ↔ r.buffer.length < r.offset + n := by
  unfold takeN
  split <;> constructor <;> intro h <;> first | omega | simp_all

theorem RdEqW.rdExt (h : RdEqW r1 r2) : RdExt r1 r2 := ⟨h.2.1, h.2.2 ▸ List.prefix_refl _⟩

theorem RdEqW.rdExt_rev (h : RdEqW r1 r2) : RdExt r2 r1 := ⟨h.1, h.2.2 ▸ List.prefix_refl _⟩

theorem takeN_extStep (n : Nat) : ExtStep (fun r => takeN r n) := by
  intro r1 r2 a r1' hext h
  rw [takeN_eq_some] at h
  obtain ⟨hb, hv, hr⟩ := h
  obtain ⟨ho2, t, ht⟩ := hext
  have hw1 : (window r1).length = r1.buffer.length - r1.offset := List.length_drop ..
  have hw2 : (window r2).length = r2.buffer.length - r2.offset := List.length_drop ..
  have hlen : n ≤ (window r1).length := by omega
  have hb2 : r2.offset + n ≤ r2.buffer.length := by
    have := congrArg List.length ht
    simp only [List.length_append] at this
    omega
  refine ⟨⟨r2.buffer, r2.offset + n⟩, ?_, ?_⟩
  · rw [takeN_eq_some]
    refine ⟨hb2, ?_, rfl⟩
    have htk : (window r2).take n = (window r1).take n := by
      rw [← ht, List.take_append_eq_append_take, Nat.sub_eq_zero_of_le hlen,
        List.take_zero, List.append_nil]
    rw [hv]
    exact htk.symm
  · subst hr
    refine ⟨by simpa using hb2, ?_⟩
    show (r1.buffer.drop (r1.offset + n)) <+: (r2.buffer.drop (r2.offset + n))
    have h1 : r1.buffer.drop (r1.offset + n) = (window r1).drop n := by
      unfold window
      rw [List.drop_drop, Nat.add_comm]
    have h2 : r2.buffer.drop (r2.offset + n) = (window r2).drop n := by
      unfold window
      rw [List.drop_drop, Nat.add_comm]
    rw [h1, h2, ← ht, List.drop_append_eq_append_drop, Nat.sub_eq_zero_of_le hlen,
      List.drop_zero]
    exact List.prefix_append ..

/-- `ExtStep` transports through value post-processing by `Option.map`. -/
theorem ExtStep.mapv {P : BinaryReader → Option (α × BinaryReader)} (hP : ExtStep P)
    (g : α → β) : ExtStep (fun r => (P r).map fun x => (g x.1, x.2)) := by
  intro r1 r2 a r1' hext h
  simp only [Option.map_eq_some'] at h
  obtain ⟨x, hx, hfx⟩ := h
  obtain ⟨r2', h2, hext2⟩ := hP _ _ x.1 x.2 hext (by rw [hx])
  have ha : g x.1 = a := congrArg Prod.fst hfx
  have hr : x.2 = r1' := congrArg Prod.snd hfx
  refine ⟨r2', ?_, hr ▸ hext2⟩
  simp only [Option.map_eq_some']
  exact ⟨(x.1, r2'), h2, by rw [ha]⟩

theorem readUint8_extStep : ExtStep readUint8 := by
  unfold readUint8
  exact ExtStep.mapv (takeN_extStep 1) leNat

theorem readUint16_extStep : ExtStep readUint16 := by
  unfold readUint16
  exact ExtStep.mapv (takeN_extStep 2) leNat

theorem readUint32_extStep : ExtStep readUint32 := by
  unfold readUint32
  exact ExtStep.mapv (takeN_extStep 4) leNat

theorem readFloat32_extStep : ExtStep readFloat32 := by
  unfold readFloat32
  exact ExtStep.mapv (takeN_extStep 4) leNat

theorem readString_extStep (len : Nat) : ExtStep (fun r => readString r len) := by
  unfold readString
  exact takeN_extStep len

theorem readFixedString_extStep (len : Nat) : ExtStep (fun r => readFixedString r len) := by
  unfold readFixedString
  exact ExtStep.mapv (readString_extStep len) rstripZeros

theorem readChunkId_extStep : ExtStep readChunkId := by
  unfold readChunkId
  exact readString_extStep 4

theorem readVec3_extStep : ExtStep readVec3 := by
  intro r1 r2 a r1' hext h
  unfold readVec3 at h ⊢
  cases h1 : readFloat32 r1 with
  | none => rw [h1] at h; cases h
  | some xr =>
    rw [h1] at h
    simp only [Option.some_bind] at h
    obtain ⟨x2, hx2, hext1⟩ := readFloat32_extStep _ _ xr.1 xr.2 hext (by rw [h1])
    cases h2 : readFloat32 xr.2 with
    | none => rw [h2] at h; cases h
    | some yr =>
      rw [h2] at h
      simp only [Option.some_bind] at h
      obtain ⟨y2, hy2, hext2⟩ := readFloat32_extStep _ _ yr.1 yr.2 hext1 (by rw [h2])
      cases h3 : readFloat32 yr.2 with
      | none => rw [h3] at h; cases h
      | some zr =>
        rw [h3] at h
        obtain ⟨z2, hz2, hext3⟩ := readFloat32_extStep _ _ zr.1 zr.2 hext2 (by rw [h3])
        simp only [Option.map_eq_some'] at h
        obtain ⟨w, hw, hfw⟩ := h
        obtain rfl : w = zr := by
          rw [Option.some.injEq] at hw
          exact hw.symm
        rw [Prod.mk.injEq] at hfw
        obtain ⟨hfa, hfr⟩ := hfw
        subst hfa
        subst hfr
        refine ⟨z2, ?_, ?_⟩
        · rw [hx2]
          simp only [Option.some_bind]
          rw [hy2]
          simp only [Option.some_bind]
          rw [hz2]
          simp only [Option.map_some']
        · exact hext3

theorem readUint8_eq_some {r : BinaryReader} {v : Nat} {r' : BinaryReader} :
    readUint8 r = some (v, r') ↔
      r.offset + 1 ≤ r.buffer.length ∧ v = leNat ((r.buffer.drop r.offset).take 1) ∧
        r' = ⟨r.buffer, r.offset + 1⟩ := by
  unfold readUint8 takeN
  split
  next h =>
    simp only [Option.map_some', Option.some.injEq, Prod.mk.injEq]
    constructor
    · rintro ⟨rfl, rfl⟩
      exact ⟨h, rfl, rfl⟩
    · rintro ⟨-, rfl, rfl⟩
      exact ⟨rfl, rfl⟩
  next h =>
    simp only [Option.map_none']
    constructor
    · intro hh
      cases hh
    · rintro ⟨h1, -, -⟩
      exact absurd h1 h

theorem readUint16_eq_some {r : BinaryReader} {v : Nat} {r' : BinaryReader} :
    readUint16 r = some (v, r') ↔
      r.offset + 2 ≤ r.buffer.length ∧ v = leNat ((r.buffer.drop r.offset).take 2) ∧
        r' = ⟨r.buffer, r.offset + 2⟩ := by
  unfold readUint16 takeN
  split
  next h =>
    simp only [Option.map_some', Option.some.injEq, Prod.mk.injEq]
    constructor
    · rintro ⟨rfl, rfl⟩
      exact ⟨h, rfl, rfl⟩
    · rintro ⟨-, rfl, rfl⟩
      exact ⟨rfl, rfl⟩
  next h =>
    simp only [Option.map_none']
    constructor
    · intro hh
      cases hh
    · rintro ⟨h1, -, -⟩
      exact absurd h1 h

theorem readUint32_eq_some {r : BinaryReader} {v : Nat} {r' : BinaryReader} :
    readUint32 r = some (v, r') ↔
      r.offset + 4 ≤ r.buffer.length ∧ v = leNat ((r.buffer.drop r.offset).take 4) ∧
        r' = ⟨r.buffer, r.offset + 4⟩ := by
  unfold readUint32 takeN
  split
  next h =>
    simp only [Option.map_some', Option.some.injEq, Prod.mk.injEq]
    constructor
    · rintro ⟨rfl, rfl⟩
      exact ⟨h, rfl, rfl⟩
    · rintro ⟨-, rfl, rfl⟩
      exact ⟨rfl, rfl⟩
  next h =>
    simp only [Option.map_none']
    constructor
    · intro hh
      cases hh
    · rintro ⟨h1, -, -⟩
      exact absurd h1 h

theorem readFloat32_eq_readUint32 : readFloat32 = readUint32 := rfl

theorem readFloat32_eq_some {r : BinaryReader} {v : Nat} {r' : BinaryReader} :
    readFloat32 r = some (v, r') ↔
      r.offset + 4 ≤ r.buffer.length ∧ v = leNat ((r.buffer.drop r.offset).take 4) ∧
        r' = ⟨r.buffer, r.offset + 4⟩ := by
  rw [readFloat32_eq_readUint32]
  exact readUint32_eq_some

theorem readString_eq_some {r : BinaryReader} {len : Nat} {v : List Nat} {r' : BinaryReader} :
    readString r len = some (v, r') ↔
      r.offset + len ≤ r.buffer.length ∧ v = (r.buffer.drop r.offset).take len ∧
        r' = ⟨r.buffer, r.offset + len⟩ :=
  takeN_eq_some

theorem readVec3_eq_some {r : BinaryReader} {v : Vec3P} {r' : BinaryReader} :
    readVec3 r = some (v, r') ↔
      r.offset + 12 ≤ r.buffer.length ∧
        v = ⟨leNat ((r.buffer.drop r.offset).take 4),
             leNat ((r.buffer.drop (r.offset + 4)).take 4),
             leNat ((r.buffer.drop (r.offset + 8)).take 4)⟩ ∧
        r' = ⟨r.buffer, r.offset + 12⟩ := by
  unfold readVec3
  constructor
  · intro h
    cases h1 : readFloat32 r with
    | none => rw [h1] at h; cases h
    | some xr =>
      rw [h1] at h
      simp only [Option.some_bind] at h
      cases h2 : readFloat32 xr.2 with
      | none => rw [h2] at h; cases h
      | some yr =>
        rw [h2] at h
        simp only [Option.some_bind] at h
        cases h3 : readFloat32 yr.2 with
        | none => rw [h3] at h; cases h
        | some zr =>
          rw [h3] at h
          simp only [Option.map_some', Option.some.injEq, Prod.mk.injEq] at h
          obtain ⟨hv, hr⟩ := h
          rw [readFloat32_eq_some] at h1 h2 h3
          obtain ⟨hb1, hv1, hr1⟩ := h1
          rw [hr1] at h2
          obtain ⟨hb2, hv2, hr2⟩ := h2
          dsimp only at hb2 hv2 hr2
          rw [hr2] at h3
          obtain ⟨hb3, hv3, hr3⟩ := h3
          dsimp only at hb3 hv3 hr3
          have e1 : r.offset + 4 + 4 = r.offset + 8 := by omega
          have e2 : r.offset + 4 + 4 + 4 = r.offset + 12 := by omega
          rw [e1] at hv3
          rw [e1, e2] at hr3
          refine ⟨by omega, ?_, ?_⟩
          · rw [← hv, hv1, hv2, hv3]
          · rw [← hr, hr3]
  · rintro ⟨hb, rfl, rfl⟩
    have h1 : readFloat32 r =
        some (leNat ((r.buffer.drop r.offset).take 4), ⟨r.buffer, r.offset + 4⟩) := by
      rw [readFloat32_eq_some]
      exact ⟨by omega, rfl, rfl⟩
    have h2 : readFloat32 (⟨r.buffer, r.offset + 4⟩ : BinaryReader) =
        some (leNat ((r.buffer.drop (r.offset + 4)).take 4), ⟨r.buffer, r.offset + 8⟩) := by
      rw [readFloat32_eq_some]
      refine ⟨?_, rfl, ?_⟩
      · dsimp only
        omega
      · dsimp only
    have h3 : readFloat32 (⟨r.buffer, r.offset + 8⟩ : BinaryReader) =
        some (leNat ((r.buffer.drop (r.offset + 8)).take 4), ⟨r.buffer, r.offset + 12⟩) := by
      rw [readFloat32_eq_some]
      refine ⟨?_, rfl, ?_⟩
      · dsimp only
        omega
      · dsimp only
    rw [h1]
    simp only [Option.some_bind]
    rw [h2]
    simp only [Option.some_bind]
    rw [h3]
    simp only [Option.map_some']

theorem leNat_singleton (b : Nat) : leNat [b] = b := by
  simp [leNat]

theorem take_one_drop {l : List Nat} {o : Nat} (h : o < l.length) :
    (l.drop o).take 1 = [l.getD o 0] := by
  cases hd : l.drop o with
  | nil =>
    have hlen := congrArg List.length hd
    rw [List.length_drop] at hlen
    simp at hlen
    omega
  | cons b t =>
    have hb : l[o]? = some b := by
      have hq := List.getElem?_drop l o 0
      rw [hd] at hq
      simpa using hq.symm
    have hgd : l.getD o 0 = b := by
      rw [List.getD_eq_getElem?_getD, hb]
      rfl
    rw [hgd]
    rfl

/-- Full characterization of a successful `parseModelSpawn`: the buffer is
unchanged, the decoded flags are the byte at the record's start, the `bound`
field is present exactly when bit 0 of the flags is set, `hasBound` mirrors
that bit, and the record consumes `1+1+4+12+12+4` fixed bytes, 24 bound bytes
exactly when bit 0 is set, then `4 + name-length` bytes. -/
theorem parseModelSpawn_spec {r : BinaryReader} {s : ModelSpawn} {r' : BinaryReader}
    (h : parseModelSpawn r = some (s, r')) :
    r'.buffer = r.buffer ∧
    s.flags = r.buffer.getD r.offset 0 ∧
    s.hasBound = ((s.flags &&& MOD_HAS_BOUND) != 0) ∧
    (s.bound.isSome ↔ s.flags &&& MOD_HAS_BOUND ≠ 0) ∧
    r'.offset = r.offset + (1 + 1 + 4 + 12 + 12 + 4) +
      (if s.flags &&& MOD_HAS_BOUND ≠ 0 then 24 else 0) + (4 + s.name.length) := by
  unfold parseModelSpawn at h
  cases h1 : readUint8 r with
  | none => rw [h1] at h; cases h
  | some fr =>
  rw [h1] at h
  simp only [Option.some_bind] at h
  cases h2 : readUint8 fr.2 with
  | none => rw [h2] at h; cases h
  | some ar =>
  rw [h2] at h
  simp only [Option.some_bind] at h
  cases h3 : readUint32 ar.2 with
  | none => rw [h3] at h; cases h
  | some ir =>
  rw [h3] at h
  simp only [Option.some_bind] at h
  cases h4 : readVec3 ir.2 with
  | none => rw [h4] at h; cases h
  | some pr =>
  rw [h4] at h
  simp only [Option.some_bind] at h
  cases h5 : readVec3 pr.2 with
  | none => rw [h5] at h; cases h
  | some rr =>
  rw [h5] at h
  simp only [Option.some_bind] at h
  cases h6 : readFloat32 rr.2 with
  | none => rw [h6] at h; cases h
  | some sr =>
  rw [h6] at h
  simp only [Option.some_bind] at h
  -- characterize the fixed-width reads
  rw [readUint8_eq_some] at h1
  obtain ⟨hb1, hv1, hr1⟩ := h1
  rw [hr1] at h2
  rw [readUint8_eq_some] at h2
  obtain ⟨hb2, hv2, hr2⟩ := h2
  dsimp only at hb2 hv2 hr2
  rw [hr2] at h3
  rw [readUint32_eq_some] at h3
  obtain ⟨hb3, hv3, hr3⟩ := h3
  dsimp only at hb3 hv3 hr3
  rw [hr3] at h4
  rw [readVec3_eq_some] at h4
  obtain ⟨hb4, hv4, hr4⟩ := h4
  dsimp only at hb4 hv4 hr4
  rw [hr4] at h5
  rw [readVec3_eq_some] at h5
  obtain ⟨hb5, hv5, hr5⟩ := h5
  dsimp only at hb5 hv5 hr5
  rw [hr5] at h6
  rw [readFloat32_eq_some] at h6
  obtain ⟨hb6, hv6, hr6⟩ := h6
  dsimp only at hb6 hv6 hr6
  have hflags : fr.1 = r.buffer.getD r.offset 0 := by
    rw [hv1, take_one_drop (by omega), leNat_singleton]
  by_cases hbnd : fr.1 &&& MOD_HAS_BOUND ≠ 0
  · rw [if_pos hbnd] at h
    cases h7 : readVec3 sr.2 with
    | none => rw [h7] at h; cases h
    | some lor =>
    rw [h7] at h
    simp only [Option.some_bind] at h
    cases h8 : readVec3 lor.2 with
    | none => rw [h8] at h; cases h
    | some hir =>
    rw [h8] at h
    simp only [Option.map_some', Option.some_bind] at h
    cases h9 : readUint32 hir.2 with
    | none => rw [h9] at h; cases h
    | some nlr =>
    rw [h9] at h
    simp only [Option.some_bind] at h
    cases h10 : readString nlr.2 nlr.1 with
    | none => rw [h10] at h; cases h
    | some nr =>
    rw [h10] at h
    simp only [Option.map_some', Option.some.injEq, Prod.mk.injEq] at h
    obtain ⟨hs, hr'⟩ := h
    subst hs
    subst hr'
    rw [hr6] at h7
    rw [readVec3_eq_some] at h7
    obtain ⟨hb7, hv7, hr7⟩ := h7
    dsimp only at hb7 hv7 hr7
    rw [hr7] at h8
    rw [readVec3_eq_some] at h8
    obtain ⟨hb8, hv8, hr8⟩ := h8
    dsimp only at hb8 hv8 hr8
    rw [hr8] at h9
    rw [readUint32_eq_some] at h9
    obtain ⟨hb9, hv9, hr9⟩ := h9
    dsimp only at hb9 hv9 hr9
    rw [hr9] at h10
    rw [readString_eq_some] at h10
    obtain ⟨hb10, hv10, hr10⟩ := h10
    dsimp only at hb10 hv10 hr10
    have hnlen : nr.1.length = nlr.1 := by
      rw [hv10, List.length_take, List.length_drop]
      omega
    refine ⟨by rw [hr10], hflags ▸ rfl, rfl, ?_, ?_⟩
    · dsimp only
      simpa using hbnd
    · rw [hr10]
      dsimp only
      rw [if_pos (by simpa using hbnd)]
      omega
  · rw [if_neg hbnd] at h
    simp only [Option.some_bind] at h
    cases h9 : readUint32 sr.2 with
    | none => rw [h9] at h; cases h
    | some nlr =>
    rw [h9] at h
    simp only [Option.some_bind] at h
    cases h10 : readString nlr.2 nlr.1 with
    | none => rw [h10] at h; cases h
    | some nr =>
    rw [h10] at h
    simp only [Option.map_some', Option.some.injEq, Prod.mk.injEq] at h
    obtain ⟨hs, hr'⟩ := h
    subst hs
    subst hr'
    rw [hr6] at h9
    rw [readUint32_eq_some] at h9
    obtain ⟨hb9, hv9, hr9⟩ := h9
    dsimp only at hb9 hv9 hr9
    rw [hr9] at h10
    rw [readString_eq_some] at h10
    obtain ⟨hb10, hv10, hr10⟩ := h10
    dsimp only at hb10 hv10 hr10
    have hnlen : nr.1.length = nlr.1 := by
      rw [hv10, List.length_take, List.length_drop]
      omega
    refine ⟨by rw [hr10], hflags ▸ rfl, rfl, ?_, ?_⟩
    · dsimp only
      simpa using hbnd
    · rw [hr10]
      dsimp only
      rw [if_neg (by simpa using hbnd)]
      omega

theorem parseModelSpawn_extStep : ExtStep parseModelSpawn := by
  intro r1 r2 a r1' hext h
  unfold parseModelSpawn at h ⊢
  cases h1 : readUint8 r1 with
  | none => rw [h1] at h; cases h
  | some fr =>
  rw [h1] at h
  simp only [Option.some_bind] at h
  obtain ⟨x1, g1, hext1⟩ := readUint8_extStep _ _ fr.1 fr.2 hext (by rw [h1])
  cases h2 : readUint8 fr.2 with
  | none => rw [h2] at h; cases h
  | some ar =>
  rw [h2] at h
  simp only [Option.some_bind] at h
  obtain ⟨x2, g2, hext2⟩ := readUint8_extStep _ _ ar.1 ar.2 hext1 (by rw [h2])
  cases h3 : readUint32 ar.2 with
  | none => rw [h3] at h; cases h
  | some ir =>
  rw [h3] at h
  simp only [Option.some_bind] at h
  obtain ⟨x3, g3, hext3⟩ := readUint32_extStep _ _ ir.1 ir.2 hext2 (by rw [h3])
  cases h4 : readVec3 ir.2 with
  | none => rw [h4] at h; cases h
  | some pr =>
  rw [h4] at h
  simp only [Option.some_bind] at h
  obtain ⟨x4, g4, hext4⟩ := readVec3_extStep _ _ pr.1 pr.2 hext3 (by rw [h4])
  cases h5 : readVec3 pr.2 with
  | none => rw [h5] at h; cases h
  | some rr =>
  rw [h5] at h
  simp only [Option.some_bind] at h
  obtain ⟨x5, g5, hext5⟩ := readVec3_extStep _ _ rr.1 rr.2 hext4 (by rw [h5])
  cases h6 : readFloat32 rr.2 with
  | none => rw [h6] at h; cases h
  | some sr =>
  rw [h6] at h
  simp only [Option.some_bind] at h
  obtain ⟨x6, g6, hext6⟩ := readFloat32_extStep _ _ sr.1 sr.2 hext5 (by rw [h6])
  rw [g1]
  simp only [Option.some_bind]
  rw [g2]
  simp only [Option.some_bind]
  rw [g3]
  simp only [Option.some_bind]
  rw [g4]
  simp only [Option.some_bind]
  rw [g5]
  simp only [Option.some_bind]
  rw [g6]
  simp only [Option.some_bind]
  by_cases hbnd : fr.1 &&& MOD_HAS_BOUND ≠ 0
  · rw [if_pos hbnd] at h ⊢
    cases h7 : readVec3 sr.2 with
    | none => rw [h7] at h; cases h
    | some lor =>
    rw [h7] at h
    simp only [Option.some_bind] at h
    obtain ⟨x7, g7, hext7⟩ := readVec3_extStep _ _ lor.1 lor.2 hext6 (by rw [h7])
    cases h8 : readVec3 lor.2 with
    | none => rw [h8] at h; cases h
    | some hir =>
    rw [h8] at h
    simp only [Option.map_some', Option.some_bind] at h
    obtain ⟨x8, g8, hext8⟩ := readVec3_extStep _ _ hir.1 hir.2 hext7 (by rw [h8])
    cases h9 : readUint32 hir.2 with
    | none => rw [h9] at h; cases h
    | some nlr =>
    rw [h9] at h
    simp only [Option.some_bind] at h
    obtain ⟨x9, g9, hext9⟩ := readUint32_extStep _ _ nlr.1 nlr.2 hext8 (by rw [h9])
    cases h10 : readString nlr.2 nlr.1 with
    | none => rw [h10] at h; cases h
    | some nr =>
    rw [h10] at h
    simp only [Option.map_some', Option.some.injEq, Prod.mk.injEq] at h
    obtain ⟨hs, hr'⟩ := h
    obtain ⟨x10, g10, hext10⟩ :=
      readString_extStep nlr.1 _ _ nr.1 nr.2 hext9 (by exact h10)
    have g10x : readString x9 nlr.1 = some (nr.1, x10) := g10
    rw [g7]
    simp only [Option.some_bind]
    rw [g8]
    simp only [Option.map_some', Option.some_bind]
    rw [g9]
    simp only [Option.some_bind]
    rw [g10x]
    simp only [Option.map_some']
    exact ⟨x10, by rw [Option.some.injEq, Prod.mk.injEq]; exact ⟨hs, rfl⟩, hr' ▸ hext10⟩
  · rw [if_neg hbnd] at h ⊢
    simp only [Option.some_bind] at h ⊢
    cases h9 : readUint32 sr.2 with
    | none => rw [h9] at h; cases h
    | some nlr =>
    rw [h9] at h
    simp only [Option.some_bind] at h
    obtain ⟨x9, g9, hext9⟩ := readUint32_extStep _ _ nlr.1 nlr.2 hext6 (by rw [h9])
    cases h10 : readString nlr.2 nlr.1 with
    | none => rw [h10] at h; cases h
    | some nr =>
    rw [h10] at h
    simp only [Option.map_some', Option.some.injEq, Prod.mk.injEq] at h
    obtain ⟨hs, hr'⟩ := h
    obtain ⟨x10, g10, hext10⟩ :=
      readString_extStep nlr.1 _ _ nr.1 nr.2 hext9 (by exact h10)
    have g10x : readString x9 nlr.1 = some (nr.1, x10) := g10
    rw [g9]
    simp only [Option.some_bind]
    rw [g10x]
    simp only [Option.map_some']
    exact ⟨x10, by rw [Option.some.injEq, Prod.mk.injEq]; exact ⟨hs, rfl⟩, hr' ▸ hext10⟩

/-- A parser with `ExtStep`, run on two readers with equal windows, either
fails on both or succeeds on both with the same value, leaving equal
windows. -/
theorem ExtStep.eqwRel {P : BinaryReader → Option (α × BinaryReader)} (hP : ExtStep P)
    {r1 r2 : BinaryReader} (h : RdEqW r1 r2) :
    (P r1 = none ∧ P r2 = none) ∨
      ∃ a r1' r2', P r1 = some (a, r1') ∧ P r2 = some (a, r2') ∧ RdEqW r1' r2' := by
  cases hp : P r1 with
  | some x =>
    obtain ⟨r2', hp2, hext2⟩ := hP _ _ x.1 x.2 h.rdExt (by exact hp)
    obtain ⟨r1'', hp1, hext1⟩ := hP _ _ x.1 r2' h.rdExt_rev hp2
    have hx : some x = some (x.1, r1'') := by rw [← hp, hp1]
    have hr1 : x.2 = r1'' := congrArg (fun o => (o.getD (x.1, x.2)).2) hx
    refine Or.inr ⟨x.1, x.2, r2', rfl, hp2, ?_⟩
    obtain ⟨hv2, hpre12⟩ := hext2
    obtain ⟨hv1, hpre21⟩ := hext1
    rw [← hr1] at hv1 hpre21
    exact ⟨hv1, hv2, List.IsPrefix.eq_of_length hpre12
      (Nat.le_antisymm hpre12.length_le hpre21.length_le)⟩
  | none =>
    cases hp2 : P r2 with
    | some y =>
      obtain ⟨r1', hp1, -⟩ := hP _ _ y.1 y.2 h.rdExt_rev (by exact hp2)
      rw [hp] at hp1
      cases hp1
    | none => exact Or.inl ⟨rfl, rfl⟩

theorem spawnLoop_succ_none {r : BinaryReader} {n i : Nat}
    (h : parseModelSpawn r = none) :
    spawnLoop (n + 1) i r = .failure (.spawnFailed i .unexpectedEndOfData) := by
  unfold spawnLoop
  rw [h]

theorem spawnLoop_succ_some {r : BinaryReader} {n i : Nat} {sr : ModelSpawn × BinaryReader}
    (h : parseModelSpawn r = some sr) :
    spawnLoop (n + 1) i r =
      match spawnLoop n (i + 1) sr.2 with
      | .failure e => .failure e
      | .success rest => .success (sr.1 :: rest) := by
  conv_lhs => unfold spawnLoop
  rw [h]

/-- The spawn loop transports along window extension (success case). -/
theorem spawnLoop_ext :
    ∀ (n i : Nat) (r1 r2 : BinaryReader) (l : List ModelSpawn),
      RdExt r1 r2 → spawnLoop n i r1 = .success l → spawnLoop n i r2 = .success l := by
  intro n
  induction n with
  | zero =>
    intro i r1 r2 l _ h
    exact h
  | succ m ih =>
    intro i r1 r2 l hext h
    cases hp : parseModelSpawn r1 with
    | none =>
      rw [spawnLoop_succ_none hp] at h
      cases h
    | some sr =>
      rw [spawnLoop_succ_some hp] at h
      obtain ⟨x2, hp2, hext2⟩ := parseModelSpawn_extStep _ _ sr.1 sr.2 hext (by exact hp)
      rw [spawnLoop_succ_some hp2]
      dsimp only
      cases hrest : spawnLoop m (i + 1) sr.2 with
      | failure e =>
        rw [hrest] at h
        cases h
      | success rest =>
        rw [hrest] at h
        rw [ih (i + 1) sr.2 x2 rest hext2 hrest]
        exact h

/-- The spawn loop gives structurally equal results on equal windows. -/
theorem spawnLoop_eqw :
    ∀ (n i : Nat) (r1 r2 : BinaryReader), RdEqW r1 r2 →
      spawnLoop n i r1 = spawnLoop n i r2 := by
  intro n
  induction n with
  | zero =>
    intro i r1 r2 _
    rfl
  | succ m ih =>
    intro i r1 r2 heqw
    rcases ExtStep.eqwRel parseModelSpawn_extStep heqw with ⟨hn1, hn2⟩ | ⟨a, r1', r2', hs1, hs2, heqw'⟩
    · rw [spawnLoop_succ_none hn1, spawnLoop_succ_none hn2]
    · rw [spawnLoop_succ_some hs1, spawnLoop_succ_some hs2]
      dsimp only
      rw [ih (i + 1) r1' r2' heqw']

/-- If the loop state reaches record `k` and `parseModelSpawn` fails there,
the whole loop fails naming index `i + k` with the end-of-data cause. -/
theorem spawnLoop_fail_at :
    ∀ (k fuel i : Nat) (r r3 : BinaryReader),
      iterateSpawns k r = some r3 → k < fuel → parseModelSpawn r3 = none →
      spawnLoop fuel i r = .failure (.spawnFailed (i + k) .unexpectedEndOfData) := by
  intro k
  induction k with
  | zero =>
    intro fuel i r r3 hit hlt hfail
    obtain rfl : r = r3 := by
      unfold iterateSpawns at hit
      exact Option.some.injEq .. ▸ hit
    obtain ⟨m, rfl⟩ : ∃ m, fuel = m + 1 := ⟨fuel - 1, by omega⟩
    rw [spawnLoop_succ_none hfail]
    rfl
  | succ j ih =>
    intro fuel i r r3 hit hlt hfail
    unfold iterateSpawns at hit
    cases hp : parseModelSpawn r with
    | none =>
      rw [hp] at hit
      cases hit
    | some sr =>
      rw [hp] at hit
      simp only [Option.some_bind] at hit
      obtain ⟨m, rfl⟩ : ∃ m, fuel = m + 1 := ⟨fuel - 1, by omega⟩
      rw [spawnLoop_succ_some hp]
      rw [ih m (i + 1) sr.2 r3 hit (by omega) hfail]
      have harith : i + 1 + j = i + (j + 1) := by omega
      rw [harith]

theorem readFixedString_eq_some {r : BinaryReader} {len : Nat} {v : List Nat}
    {r' : BinaryReader} :
    readFixedString r len = some (v, r') ↔
      r.offset + len ≤ r.buffer.length ∧
        v = rstripZeros ((r.buffer.drop r.offset).take len) ∧
        r' = ⟨r.buffer, r.offset + len⟩ := by
  unfold readFixedString readString takeN
  split
  next h =>
    simp only [Option.map_some', Option.some.injEq, Prod.mk.injEq]
    constructor
    · rintro ⟨rfl, rfl⟩
      exact ⟨h, rfl, rfl⟩
    · rintro ⟨-, rfl, rfl⟩
      exact ⟨rfl, rfl⟩
  next h =>
    simp only [Option.map_none']
    constructor
    · intro hh
      cases hh
    · rintro ⟨h1, -, -⟩
      exact absurd h1 h

/-- Every list is its zero-stripped form followed by a run of zeros. -/
theorem rstripZeros_append_replicate (l : List Nat) :
    l = rstripZeros l ++ List.replicate (l.length - (rstripZeros l).length) 0 := by
  unfold rstripZeros
  have hsplit : l.reverse.takeWhile (fun b => b == 0) ++
      l.reverse.dropWhile (fun b => b == 0) = l.reverse :=
    List.takeWhile_append_dropWhile _ _
  have hrep : l.reverse.takeWhile (fun b => b == 0) =
      List.replicate ((l.reverse.takeWhile (fun b => b == 0)).length) 0 := by
    apply List.eq_replicate_of_mem
    intro b hb
    have := List.mem_takeWhile_imp hb
    simpa using this
  have hlen : (l.reverse.dropWhile (fun b => b == 0)).length +
      (l.reverse.takeWhile (fun b => b == 0)).length = l.length := by
    have := congrArg List.length hsplit
    simp only [List.length_append, List.length_reverse] at this
    omega
  conv_lhs => rw [← List.reverse_reverse l, ← hsplit]
  rw [List.reverse_append, hrep, List.reverse_replicate, List.length_reverse]
  congr 1
  congr 1
  omega

theorem rstripZeros_length_le (l : List Nat) : (rstripZeros l).length ≤ l.length := by
  conv_rhs => rw [rstripZeros_append_replicate l]
  rw [List.length_append]
  omega

/-- The only 8-byte strings accepted by the tile magic check are `'VMAP_4.E'`
and `'VMAP04E\0'`. -/
theorem magic8_accepted {m : List Nat} (hlen : m.length = 8)
    (hmem : rstripZeros m ∈ VMAP_MAGIC_VERSIONS) :
    m = VMAP_MAGIC ∨ m = RAW_VMAP_MAGIC ++ [0] := by
  have hm := rstripZeros_append_replicate m
  rcases List.mem_pair.mp hmem with h | h
  · left
    rw [h] at hm
    have hz : m.length - VMAP_MAGIC.length = 0 := by
      simp only [VMAP_MAGIC, List.length_cons, List.length_nil] at *
      omega
    rw [hz] at hm
    simpa using hm
  · right
    rw [h] at hm
    have hz : m.length - RAW_VMAP_MAGIC.length = 1 := by
      simp only [RAW_VMAP_MAGIC, List.length_cons, List.length_nil] at *
      omega
    rw [hz] at hm
    simpa using hm

/-- Reduction of `parseVmTile` past an accepted magic and a spawn count. -/
theorem parseVmTile_steps {buffer m : List Nat} {r1 : BinaryReader} {n : Nat}
    {r2 : BinaryReader}
    (hm : readFixedString ⟨buffer, 0⟩ 8 = some (m, r1))
    (hmok : m ∈ VMAP_MAGIC_VERSIONS)
    (hn : readUint32 r1 = some (n, r2)) :
    parseVmTile buffer =
      match spawnLoop n 0 r2 with
      | .failure e => .failure e
      | .success spawns => .success ⟨m, spawns⟩ := by
  unfold parseVmTile
  rw [hm]
  dsimp only
  rw [if_pos hmok, hn]

/-- Reduction of `parseVmTile` when the spawn count read runs out of data. -/
theorem parseVmTile_countFail {buffer m : List Nat} {r1 : BinaryReader}
    (hm : readFixedString ⟨buffer, 0⟩ 8 = some (m, r1))
    (hmok : m ∈ VMAP_MAGIC_VERSIONS)
    (hn : readUint32 r1 = none) :
    parseVmTile buffer = .failure (.topLevel .unexpectedEndOfData) := by
  unfold parseVmTile
  rw [hm]
  dsimp only
  rw [if_pos hmok, hn]

/-- Reading the fixed 8-byte magic from a buffer that starts with an 8-byte
string. -/
theorem readFixedString_magic8 (m p : List Nat) (hlen : m.length = 8) :
    readFixedString ⟨m ++ p, 0⟩ 8 = some (rstripZeros m, ⟨m ++ p, 8⟩) := by
  rw [readFixedString_eq_some]
  refine ⟨?_, ?_, ?_⟩
  · simp only [List.length_append]
    omega
  · rw [List.drop_zero, ← hlen, List.take_left]
  · norm_num

/-! ## Claim theorems -/

/-- C1 (amended): `skip(n)` never fails — it unconditionally advances the
position by `n`, which can leave `position > length(buffer)`; every read goes
through `takeN`, which fails exactly when `position + width` would exceed
`length(buffer)` and, on success, leaves `position ≤ length(buffer)` (so the
invariant `0 ≤ position ≤ length(buffer)` holds after every successful
read, but not after an overrunning `skip`). -/
theorem claimC1 :
    (∀ (r : BinaryReader) (n : Nat), skip r n = ⟨r.buffer, r.offset + n⟩) ∧
    (∀ (r : BinaryReader) (n : Nat), (takeN r n).isSome ↔ r.offset + n ≤ r.buffer.length) ∧
    (∀ (r : BinaryReader) (n : Nat) (v : List Nat) (r' : BinaryReader),
      takeN r n = some (v, r') → r'.offset ≤ r'.buffer.length ∧ r'.offset = r.offset + n) := by
  refine ⟨fun r n => rfl, fun r n => ?_, fun r n v r' h => ?_⟩
  · unfold takeN
    split
    next h => simpa using h
    next h => simpa using h
  · rw [takeN_eq_some] at h
    obtain ⟨hb, -, rfl⟩ := h
    exact ⟨hb, rfl⟩

/-- C1 witness: a concrete in-bounds read keeps the invariant. -/
theorem claimC1_witness :
    takeN ⟨[7], 0⟩ 1 = some ([7], ⟨[7], 1⟩) ∧
      ((⟨[7], 1⟩ : BinaryReader).offset ≤ (⟨[7], 1⟩ : BinaryReader).buffer.length ∧
        (⟨[7], 1⟩ : BinaryReader).offset = (⟨[7], 0⟩ : BinaryReader).offset + 1) :=
  ⟨by decide, claimC1.2.2 ⟨[7], 0⟩ 1 [7] ⟨[7], 1⟩ (by decide)⟩

/-- C1 counterexample: `skip` past the end of an empty buffer succeeds (it
cannot fail) and leaves `position > length(buffer)`, violating the claimed
invariant. -/
theorem claimC1_counterexample :
    (skip ⟨[], 0⟩ 5).offset > (skip ⟨[], 0⟩ 5).buffer.length := by decide

/-- C3 (amended): the Tile Spawn decoder is deterministic — decoding the same
bytes twice yields structurally equal results (it is a pure function of the
buffer). -/
theorem claimC3 (b : List Nat) : parseVmTile b = parseVmTile b := rfl

/-- C3 counterexample: the decoder is not injective on byte-for-byte distinct
valid inputs — a buffer and the same buffer with a trailing junk byte are
distinct, both decode successfully, and the decoded results are equal. -/
theorem claimC3_counterexample :
    parseVmTile (VMAP_MAGIC ++ [0, 0, 0, 0]) = .success ⟨VMAP_MAGIC, []⟩ ∧
    parseVmTile (VMAP_MAGIC ++ [0, 0, 0, 0] ++ [0]) = .success ⟨VMAP_MAGIC, []⟩ ∧
    VMAP_MAGIC ++ [0, 0, 0, 0] ≠ VMAP_MAGIC ++ [0, 0, 0, 0] ++ [0] := by decide

/-- C4: the decoded `bound` is present iff bit 0 of the record's flags byte is
set, and the record consumes `1+1+4+12+12+4+4+name-bytes` bytes plus a
24-byte bound region exactly when that bit is set. -/
theorem claimC4 (r : BinaryReader) (s : ModelSpawn) (r' : BinaryReader)
    (h : parseModelSpawn r = some (s, r')) :
    (s.bound.isSome ↔ r.buffer.getD r.offset 0 &&& 1 ≠ 0) ∧
    s.hasBound = (r.buffer.getD r.offset 0 &&& 1 != 0) ∧
    r'.offset = r.offset + (1 + 1 + 4 + 12 + 12 + 4 + 4 + s.name.length) +
      (if r.buffer.getD r.offset 0 &&& 1 ≠ 0 then 24 else 0) := by
  obtain ⟨hbuf, hflags, hhb, hiff, hoff⟩ := parseModelSpawn_spec h
  rw [← hflags]
  simp only [ MOD_HAS_BOUND] at hiff hoff hhb
  refine ⟨hiff, hhb, ?_⟩
  by_cases hc : s.flags &&& 1 ≠ 0
  · rw [if_pos hc] at hoff ⊢
    omega
  · rw [if_neg hc] at hoff ⊢
    omega

/-- C4 witness: a concrete 38-byte record with a clear has-bound bit decodes
with no bound and consumes exactly 38 bytes. -/
theorem claimC4_witness :
    parseModelSpawn ⟨List.replicate 38 0, 0⟩ =
      some (⟨0, 0, 0, ⟨0, 0, 0⟩, ⟨0, 0, 0⟩, 0, none, [], false, false, false⟩,
        ⟨List.replicate 38 0, 38⟩) ∧
    ((Option.isSome (none : Option AABoxP) = true ↔
        (List.replicate 38 0).getD 0 0 &&& 1 ≠ 0) ∧
      (false : Bool) = ((List.replicate 38 0).getD 0 0 &&& 1 != 0) ∧
      (38 : Nat) = 0 + (1 + 1 + 4 + 12 + 12 + 4 + 4 + List.length ([] : List Nat)) +
        (if (List.replicate 38 0).getD 0 0 &&& 1 ≠ 0 then 24 else 0)) :=
  ⟨by decide,
    claimC4 ⟨List.replicate 38 0, 0⟩
      ⟨0, 0, 0, ⟨0, 0, 0⟩, ⟨0, 0, 0⟩, 0, none, [], false, false, false⟩
      ⟨List.replicate 38 0, 38⟩ (by decide)⟩

/-- C10: the Tile Spawn decoder never checks that the buffer is fully
consumed — appending any extra bytes to a successfully decoding buffer yields
the same successful decode (same magic, same spawn sequence). -/
theorem claimC10 (b e : List Nat) (t : VmTile)
    (h : parseVmTile b = .success t) : parseVmTile (b ++ e) = .success t := by
  unfold parseVmTile at h
  cases hm : readFixedString ⟨b, 0⟩ 8 with
  | none => rw [hm] at h; cases h
  | some mr =>
    rw [hm] at h
    dsimp only at h
    by_cases hmok : mr.1 ∈ VMAP_MAGIC_VERSIONS
    · rw [if_pos hmok] at h
      cases hn : readUint32 mr.2 with
      | none => rw [hn] at h; cases h
      | some nr =>
        rw [hn] at h
        dsimp only at h
        cases hloop : spawnLoop nr.1 0 nr.2 with
        | failure err =>
          rw [hloop] at h
          cases h
        | success spawns =>
          rw [hloop] at h
          dsimp only at h
          have hext0 : RdExt ⟨b, 0⟩ ⟨b ++ e, 0⟩ := by
            refine ⟨Nat.zero_le _, ?_⟩
            show (b.drop 0) <+: ((b ++ e).drop 0)
            rw [List.drop_zero, List.drop_zero]
            exact List.prefix_append b e
          obtain ⟨x1, gm, hext1⟩ :=
            readFixedString_extStep 8 _ _ mr.1 mr.2 hext0 (by exact hm)
          have gmx : readFixedString ⟨b ++ e, 0⟩ 8 = some (mr.1, x1) := gm
          obtain ⟨x2, gn, hext2⟩ := readUint32_extStep _ _ nr.1 nr.2 hext1 (by exact hn)
          have gloop := spawnLoop_ext nr.1 0 nr.2 x2 spawns hext2 hloop
          unfold parseVmTile
          rw [gmx]
          dsimp only
          rw [if_pos hmok, gn]
          dsimp only
          rw [gloop]
          exact h
    · rw [if_neg hmok] at h
      cases h

/-- C10 witness: a concrete empty tile still decodes identically after junk
bytes are appended. -/
theorem claimC10_witness :
    parseVmTile (VMAP_MAGIC ++ [0, 0, 0, 0]) = .success ⟨VMAP_MAGIC, []⟩ ∧
    parseVmTile ((VMAP_MAGIC ++ [0, 0, 0, 0]) ++ [9, 9]) = .success ⟨VMAP_MAGIC, []⟩ :=
  ⟨by decide,
    claimC10 (VMAP_MAGIC ++ [0, 0, 0, 0]) [9, 9] ⟨VMAP_MAGIC, []⟩ (by decide)⟩

/-- C9: if the magic is accepted, the count is `n`, the record loop reaches
record `k < n` and that record's decode runs out of data, the whole decode
fails with the zero-based index `k` wrapping the `UnexpectedEndOfData`
cause. -/
theorem claimC9 (buffer m : List Nat) (r1 : BinaryReader) (n : Nat) (r2 : BinaryReader)
    (k : Nat) (r3 : BinaryReader)
    (hm : readFixedString ⟨buffer, 0⟩ 8 = some (m, r1))
    (hmok : m ∈ VMAP_MAGIC_VERSIONS)
    (hn : readUint32 r1 = some (n, r2))
    (hit : iterateSpawns k r2 = some r3)
    (hkn : k < n)
    (hfail : parseModelSpawn r3 = none) :
    parseVmTile buffer = .failure (.spawnFailed k .unexpectedEndOfData) := by
  rw [parseVmTile_steps hm hmok hn, spawnLoop_fail_at k n 0 r2 r3 hit hkn hfail]
  rw [Nat.zero_add]

/-- C9 witness: a one-record tile whose buffer stops one byte before the end
of the record's 2-byte name fails as `spawn 0` with the end-of-data cause. -/
theorem claimC9_witness :
    readFixedString ⟨VMAP_MAGIC ++ [1, 0, 0, 0] ++ List.replicate 34 0 ++ [2, 0, 0, 0, 65], 0⟩ 8 =
        some (VMAP_MAGIC, ⟨VMAP_MAGIC ++ [1, 0, 0, 0] ++ List.replicate 34 0 ++ [2, 0, 0, 0, 65], 8⟩) ∧
    VMAP_MAGIC ∈ VMAP_MAGIC_VERSIONS ∧
    readUint32 ⟨VMAP_MAGIC ++ [1, 0, 0, 0] ++ List.replicate 34 0 ++ [2, 0, 0, 0, 65], 8⟩ =
        some (1, ⟨VMAP_MAGIC ++ [1, 0, 0, 0] ++ List.replicate 34 0 ++ [2, 0, 0, 0, 65], 12⟩) ∧
    parseModelSpawn ⟨VMAP_MAGIC ++ [1, 0, 0, 0] ++ List.replicate 34 0 ++ [2, 0, 0, 0, 65], 12⟩ = none ∧
    parseVmTile (VMAP_MAGIC ++ [1, 0, 0, 0] ++ List.replicate 34 0 ++ [2, 0, 0, 0, 65]) =
      .failure (.spawnFailed 0 .unexpectedEndOfData) :=
  ⟨by decide, by decide, by decide, by decide,
    claimC9 (VMAP_MAGIC ++ [1, 0, 0, 0] ++ List.replicate 34 0 ++ [2, 0, 0, 0, 65])
      VMAP_MAGIC
      ⟨VMAP_MAGIC ++ [1, 0, 0, 0] ++ List.replicate 34 0 ++ [2, 0, 0, 0, 65], 8⟩ 1
      ⟨VMAP_MAGIC ++ [1, 0, 0, 0] ++ List.replicate 34 0 ++ [2, 0, 0, 0, 65], 12⟩ 0
      ⟨VMAP_MAGIC ++ [1, 0, 0, 0] ++ List.replicate 34 0 ++ [2, 0, 0, 0, 65], 12⟩
      (by decide) (by decide) (by decide) (by decide) (by decide) (by decide)⟩

theorem readChunkId_eq_some {r : BinaryReader} {v : List Nat} {r' : BinaryReader} :
    readChunkId r = some (v, r') ↔
      r.offset + 4 ≤ r.buffer.length ∧ v = (r.buffer.drop r.offset).take 4 ∧
        r' = ⟨r.buffer, r.offset + 4⟩ :=
  takeN_eq_some

theorem readAABox_adv {r : BinaryReader} {b : AABoxP} {r' : BinaryReader}
    (h : readAABox r = some (b, r')) :
    r' = ⟨r.buffer, r.offset + 24⟩ := by
  unfold readAABox at h
  cases h1 : readVec3 r with
  | none => rw [h1] at h; cases h
  | some lor =>
    rw [h1] at h
    simp only [Option.some_bind] at h
    cases h2 : readVec3 lor.2 with
    | none => rw [h2] at h; cases h
    | some hir =>
      rw [h2] at h
      simp only [Option.map_some', Option.some.injEq, Prod.mk.injEq] at h
      obtain ⟨-, hr⟩ := h
      rw [readVec3_eq_some] at h1 h2
      obtain ⟨-, -, hr1⟩ := h1
      rw [hr1] at h2
      obtain ⟨-, -, hr2⟩ := h2
      dsimp only at hr2
      rw [← hr, hr2]

/-- C5: a group whose `VERT` vertex-count field is 0 decodes to a `GroupModel`
with empty vertices and indices, and the decoder stops right after the count:
the reader it returns sits exactly 44 bytes after the group start (bound 24 +
mogpFlags 4 + groupWmoId 4 + tag 4 + declared size 4 + count 4), so no
`TRIM`/`MBIH`/`LIQU` bytes are read no matter what follows. -/
theorem claimC5 (r : BinaryReader) (bound : AABoxP) (mog gid sz : Nat)
    (r1 r2 r3 r4 r5 r6 : BinaryReader)
    (h1 : readAABox r = some (bound, r1))
    (h2 : readUint32 r1 = some (mog, r2))
    (h3 : readUint32 r2 = some (gid, r3))
    (h4 : readChunkId r3 = some (VERT_TAG, r4))
    (h5 : readUint32 r4 = some (sz, r5))
    (h6 : readUint32 r5 = some (0, r6)) :
    parseGroupModel r = some (⟨bound, mog, gid, [], []⟩, r6) ∧
    r6 = ⟨r.buffer, r.offset + 44⟩ := by
  constructor
  · unfold parseGroupModel
    rw [h1]
    simp only [Option.bind_eq_bind, Option.some_bind]
    rw [h2]
    simp only [Option.some_bind]
    rw [h3]
    simp only [Option.some_bind]
    rw [h4]
    simp only [Option.some_bind, if_true]
    rw [h5]
    simp only [Option.some_bind]
    rw [h6]
    simp only [Option.some_bind, if_true]
  · have ha := readAABox_adv h1
    rw [ha] at h2
    rw [readUint32_eq_some] at h2
    obtain ⟨-, -, hr2⟩ := h2
    dsimp only at hr2
    rw [hr2] at h3
    rw [readUint32_eq_some] at h3
    obtain ⟨-, -, hr3⟩ := h3
    dsimp only at hr3
    rw [hr3] at h4
    rw [readChunkId_eq_some] at h4
    obtain ⟨-, -, hr4⟩ := h4
    dsimp only at hr4
    rw [hr4] at h5
    rw [readUint32_eq_some] at h5
    obtain ⟨-, -, hr5⟩ := h5
    dsimp only at hr5
    rw [hr5] at h6
    rw [readUint32_eq_some] at h6
    obtain ⟨-, -, hr6⟩ := h6
    dsimp only at hr6
    rw [hr6]

/-- C5 witness: a concrete 44-byte zero-vertex group header followed by junk
bytes decodes to the empty-geometry group with the reader at offset 44. -/
theorem claimC5_witness :
    parseGroupModel
        ⟨List.replicate 24 0 ++ [7, 0, 0, 0] ++ [8, 0, 0, 0] ++ VERT_TAG ++
          [4, 0, 0, 0] ++ [0, 0, 0, 0] ++ [9, 9, 9], 0⟩ =
      some (⟨⟨⟨0, 0, 0⟩, ⟨0, 0, 0⟩⟩, 7, 8, [], []⟩,
        ⟨List.replicate 24 0 ++ [7, 0, 0, 0] ++ [8, 0, 0, 0] ++ VERT_TAG ++
          [4, 0, 0, 0] ++ [0, 0, 0, 0] ++ [9, 9, 9], 44⟩) ∧
    (⟨List.replicate 24 0 ++ [7, 0, 0, 0] ++ [8, 0, 0, 0] ++ VERT_TAG ++
        [4, 0, 0, 0] ++ [0, 0, 0, 0] ++ [9, 9, 9], 44⟩ : BinaryReader) =
      ⟨List.replicate 24 0 ++ [7, 0, 0, 0] ++ [8, 0, 0, 0] ++ VERT_TAG ++
        [4, 0, 0, 0] ++ [0, 0, 0, 0] ++ [9, 9, 9], 0 + 44⟩ :=
  claimC5
    ⟨List.replicate 24 0 ++ [7, 0, 0, 0] ++ [8, 0, 0, 0] ++ VERT_TAG ++
      [4, 0, 0, 0] ++ [0, 0, 0, 0] ++ [9, 9, 9], 0⟩
    ⟨⟨0, 0, 0⟩, ⟨0, 0, 0⟩⟩ 7 8 4
    ⟨List.replicate 24 0 ++ [7, 0, 0, 0] ++ [8, 0, 0, 0] ++ VERT_TAG ++
      [4, 0, 0, 0] ++ [0, 0, 0, 0] ++ [9, 9, 9], 24⟩
    ⟨List.replicate 24 0 ++ [7, 0, 0, 0] ++ [8, 0, 0, 0] ++ VERT_TAG ++
      [4, 0, 0, 0] ++ [0, 0, 0, 0] ++ [9, 9, 9], 28⟩
    ⟨List.replicate 24 0 ++ [7, 0, 0, 0] ++ [8, 0, 0, 0] ++ VERT_TAG ++
      [4, 0, 0, 0] ++ [0, 0, 0, 0] ++ [9, 9, 9], 32⟩
    ⟨List.replicate 24 0 ++ [7, 0, 0, 0] ++ [8, 0, 0, 0] ++ VERT_TAG ++
      [4, 0, 0, 0] ++ [0, 0, 0, 0] ++ [9, 9, 9], 36⟩
    ⟨List.replicate 24 0 ++ [7, 0, 0, 0] ++ [8, 0, 0, 0] ++ VERT_TAG ++
      [4, 0, 0, 0] ++ [0, 0, 0, 0] ++ [9, 9, 9], 40⟩
    ⟨List.replicate 24 0 ++ [7, 0, 0, 0] ++ [8, 0, 0, 0] ++ VERT_TAG ++
      [4, 0, 0, 0] ++ [0, 0, 0, 0] ++ [9, 9, 9], 44⟩
    (by decide) (by decide) (by decide) (by decide) (by decide) (by decide)

/-- C6: the acceleration-tree skip reads the two u32 counts and advances the
cursor by exactly 24 + 4 + 4·treeNodeCount + 4 + 4·objectCount bytes. -/
theorem claimC6 (r rt rc : BinaryReader) (t c : Nat)
    (ht : readUint32 (skip r (6 * 4)) = some (t, rt))
    (hc : readUint32 (skip rt (t * 4)) = some (c, rc)) :
    skipBIH r = some (skip rc (c * 4)) ∧
    (skip rc (c * 4)).offset = r.offset + (24 + 4 + 4 * t + 4 + 4 * c) := by
  constructor
  · rw [show skipBIH r =
      (readUint32 (skip r (6 * 4))).bind fun tr =>
        (readUint32 (skip tr.2 (tr.1 * 4))).bind fun cr =>
          some (skip cr.2 (cr.1 * 4)) from rfl]
    rw [ht]
    simp only [Option.some_bind]
    rw [hc]
    simp only [Option.some_bind]
  · rw [readUint32_eq_some] at ht
    obtain ⟨-, -, hrt⟩ := ht
    simp only [skip] at hrt
    rw [hrt] at hc
    rw [readUint32_eq_some] at hc
    obtain ⟨-, -, hrc⟩ := hc
    simp only [skip] at hrc
    rw [hrc]
    simp only [skip]
    omega

/-- C6 witness: a concrete `MBIH` region with treeNodeCount 3 and objectCount
2 is skipped by exactly 24 + 4 + 12 + 4 + 8 = 52 bytes. -/
theorem claimC6_witness :
    skipBIH ⟨List.replicate 24 0 ++ [3, 0, 0, 0] ++ List.replicate 12 0 ++
        [2, 0, 0, 0] ++ List.replicate 8 0, 0⟩ =
      some (skip ⟨List.replicate 24 0 ++ [3, 0, 0, 0] ++ List.replicate 12 0 ++
        [2, 0, 0, 0] ++ List.replicate 8 0, 44⟩ (2 * 4)) ∧
    (skip ⟨List.replicate 24 0 ++ [3, 0, 0, 0] ++ List.replicate 12 0 ++
        [2, 0, 0, 0] ++ List.replicate 8 0, 44⟩ (2 * 4)).offset =
      0 + (24 + 4 + 4 * 3 + 4 + 4 * 2) :=
  claimC6
    ⟨List.replicate 24 0 ++ [3, 0, 0, 0] ++ List.replicate 12 0 ++
      [2, 0, 0, 0] ++ List.replicate 8 0, 0⟩
    ⟨List.replicate 24 0 ++ [3, 0, 0, 0] ++ List.replicate 12 0 ++
      [2, 0, 0, 0] ++ List.replicate 8 0, 28⟩
    ⟨List.replicate 24 0 ++ [3, 0, 0, 0] ++ List.replicate 12 0 ++
      [2, 0, 0, 0] ++ List.replicate 8 0, 44⟩
    3 2 (by decide) (by decide)

/-- `parseVmTile` on a buffer whose stripped 8-byte magic is not accepted. -/
theorem parseVmTile_badMagic (m p : List Nat) (hlen : m.length = 8)
    (hnot : rstripZeros m ∉ VMAP_MAGIC_VERSIONS) :
    parseVmTile (m ++ p) = .failure (.badMagic (rstripZeros m)) := by
  unfold parseVmTile
  rw [readFixedString_magic8 m p hlen]
  dsimp only
  rw [if_neg hnot]

/-- C2: the Tile Spawn decoder accepts exactly the two 8-byte magics
`'VMAP_4.E'` and `'VMAP04E\0'` — any other 8-byte magic fails with the
bad-magic error — and for a fixed payload the two accepted magics decode
identically except for the recorded magic string. -/
theorem claimC2 (m p : List Nat) (hlen : m.length = 8) :
    (m ≠ VMAP_MAGIC → m ≠ RAW_VMAP_MAGIC ++ [0] →
      parseVmTile (m ++ p) = .failure (.badMagic (rstripZeros m))) ∧
    (∀ t, parseVmTile (VMAP_MAGIC ++ p) = .success t →
      t.magic = VMAP_MAGIC ∧
      parseVmTile ((RAW_VMAP_MAGIC ++ [0]) ++ p) = .success ⟨RAW_VMAP_MAGIC, t.spawns⟩) ∧
    (∀ e, parseVmTile (VMAP_MAGIC ++ p) = .failure e →
      parseVmTile ((RAW_VMAP_MAGIC ++ [0]) ++ p) = .failure e) := by
  have hm1 : readFixedString ⟨VMAP_MAGIC ++ p, 0⟩ 8 =
      some (VMAP_MAGIC, ⟨VMAP_MAGIC ++ p, 8⟩) := by
    have h := readFixedString_magic8 VMAP_MAGIC p (by decide)
    rw [show rstripZeros VMAP_MAGIC = VMAP_MAGIC from by decide] at h
    exact h
  have hm2 : readFixedString ⟨(RAW_VMAP_MAGIC ++ [0]) ++ p, 0⟩ 8 =
      some (RAW_VMAP_MAGIC, ⟨(RAW_VMAP_MAGIC ++ [0]) ++ p, 8⟩) := by
    have h := readFixedString_magic8 (RAW_VMAP_MAGIC ++ [0]) p (by decide)
    rw [show rstripZeros (RAW_VMAP_MAGIC ++ [0]) = RAW_VMAP_MAGIC from by decide] at h
    exact h
  have heqw : RdEqW ⟨VMAP_MAGIC ++ p, 8⟩ ⟨(RAW_VMAP_MAGIC ++ [0]) ++ p, 8⟩ := by
    refine ⟨?_, ?_, ?_⟩
    · show (8 : Nat) ≤ (VMAP_MAGIC ++ p).length
      simp [VMAP_MAGIC, List.length_append]
    · show (8 : Nat) ≤ ((RAW_VMAP_MAGIC ++ [0]) ++ p).length
      simp [RAW_VMAP_MAGIC, List.length_append]
    · simp only [window]
      rw [show (8 : Nat) = VMAP_MAGIC.length from by decide, List.drop_left,
        show VMAP_MAGIC.length = (RAW_VMAP_MAGIC ++ [0]).length from by decide,
        List.drop_left]
  refine ⟨?_, ?_⟩
  · intro hne1 hne2
    apply parseVmTile_badMagic m p hlen
    intro hmem
    rcases magic8_accepted hlen hmem with h | h
    · exact hne1 h
    · exact hne2 h
  · rcases ExtStep.eqwRel readUint32_extStep heqw with ⟨hn1, hn2⟩ |
      ⟨n, r1', r2', hn1, hn2, heqw'⟩
    · have hf1 := parseVmTile_countFail hm1 (by decide) hn1
      have hf2 := parseVmTile_countFail hm2 (by decide) hn2
      refine ⟨?_, ?_⟩
      · intro t ht
        rw [hf1] at ht
        cases ht
      · intro e he
        rw [hf1] at he
        rw [hf2]
        exact he
    · have hres1 := parseVmTile_steps hm1 (by decide) hn1
      have hres2 := parseVmTile_steps hm2 (by decide) hn2
      have hle := spawnLoop_eqw n 0 r1' r2' heqw'
      refine ⟨?_, ?_⟩
      · intro t ht
        rw [hres1] at ht
        cases hloop : spawnLoop n 0 r1' with
        | failure err =>
          rw [hloop] at ht
          cases ht
        | success spawns =>
          rw [hloop] at ht
          dsimp only at ht
          cases ht
          refine ⟨rfl, ?_⟩
          rw [hres2, ← hle, hloop]
      · intro e he
        rw [hres1] at he
        cases hloop : spawnLoop n 0 r1' with
        | failure err =>
          rw [hloop] at he
          dsimp only at he
          rw [hres2, ← hle, hloop]
          exact he
        | success spawns =>
          rw [hloop] at he
          cases he

/-- C2 witness: an unaccepted 8-byte magic fails with the bad-magic error;
the two accepted magics over the same empty-tile payload succeed and differ
only in the recorded magic. -/
theorem claimC2_witness :
    (List.replicate 8 1).length = 8 ∧
    (List.replicate 8 1 ≠ VMAP_MAGIC → List.replicate 8 1 ≠ RAW_VMAP_MAGIC ++ [0] →
      parseVmTile (List.replicate 8 1 ++ [0, 0, 0, 0]) =
        .failure (.badMagic (rstripZeros (List.replicate 8 1)))) ∧
    (∀ t, parseVmTile (VMAP_MAGIC ++ [0, 0, 0, 0]) = .success t →
      t.magic = VMAP_MAGIC ∧
      parseVmTile ((RAW_VMAP_MAGIC ++ [0]) ++ [0, 0, 0, 0]) =
        .success ⟨RAW_VMAP_MAGIC, t.spawns⟩) :=
  ⟨by decide,
    (claimC2 (List.replicate 8 1) [0, 0, 0, 0] (by decide)).1,
    (claimC2 (List.replicate 8 1) [0, 0, 0, 0] (by decide)).2.1⟩

/-- C8: `isHole` tests exactly bit `col % 8` of byte
`bitmap[(row/8)·128 + (col/8)·8 + (row%8)]`. -/
theorem claimC8 (holes : List Nat) (row col : Nat)
    (hlen : holes.length = 2048) (hrow : row ≤ 127) (hcol : col ≤ 127) :
    isHole holes row col = true ↔
      Nat.testBit (holes.getD (row / 8 * 128 + col / 8 * 8 + row % 8) 0) (col % 8) = true := by
  simp only [isHole]
  have hidx : row / 8 * 16 * 8 + col / 8 * 8 + row % 8 =
      row / 8 * 128 + col / 8 * 8 + row % 8 := by ring
  rw [hidx, Nat.shiftLeft_eq, one_mul, bne_iff_ne, ne_eq, Nat.and_two_pow]
  cases hb : Nat.testBit (holes.getD (row / 8 * 128 + col / 8 * 8 + row % 8) 0) (col % 8) <;>
    simp [hb, Nat.pow_eq_zero]

/-- C8 witness: with a single set bit in byte 0, `row = 0, col = 0` reads bit
0 of byte 0 and reports a hole. -/
theorem claimC8_witness :
    (1 :: List.replicate 2047 0).length = 2048 ∧
    (isHole (1 :: List.replicate 2047 0) 0 0 = true ↔
      Nat.testBit ((1 :: List.replicate 2047 0).getD (0 / 8 * 128 + 0 / 8 * 8 + 0 % 8) 0)
        (0 % 8) = true) ∧
    isHole (1 :: List.replicate 2047 0) 0 0 = true :=
  ⟨by rw [List.length_cons, List.length_replicate],
    claimC8 (1 :: List.replicate 2047 0) 0 0
      (by rw [List.length_cons, List.length_replicate]) (by decide) (by decide),
    by decide⟩

theorem readUint8_replicate (m c o : Nat) (h : o + 1 ≤ m) :
    readUint8 ⟨List.replicate m c, o⟩ = some (c, ⟨List.replicate m c, o + 1⟩) := by
  rw [readUint8_eq_some]
  refine ⟨by simpa using h, ?_, rfl⟩
  rw [List.drop_replicate, List.take_replicate,
    show min 1 (m - o) = 1 from by omega]
  rw [show List.replicate 1 c = [c] from rfl, leNat_singleton]

theorem readLoop_readUint8_replicate :
    ∀ (n m c o : Nat), o + n ≤ m →
      readLoop readUint8 n ⟨List.replicate m c, o⟩ =
        some (List.replicate n c, ⟨List.replicate m c, o + n⟩) := by
  intro n
  induction n with
  | zero =>
    intro m c o h
    unfold readLoop
    simp
  | succ k ih =>
    intro m c o h
    unfold readLoop
    rw [readUint8_replicate m c o (by omega)]
    simp only [Option.some_bind]
    rw [ih m c (o + 1) (by omega)]
    simp only [Option.map_some']
    rw [Option.some.injEq, Prod.mk.injEq]
    constructor
    · rw [List.replicate_succ]
    · rw [BinaryReader.mk.injEq]
      exact ⟨rfl, by omega⟩

/-- C7: when the no-height bit (bit 0) is clear, the int8 bit (bit 2) is
tested before the int16 bit (bit 1) — the int8 branch is taken whenever bit 2
is set, regardless of bit 1 — floats are used when neither bit is set, and
every integer-encoded height decodes to
`raw · (gridMaxHeight − gridHeight) / maxRaw + gridHeight` with
`maxRaw = 255` for int8 and `65535` for int16. -/
theorem claimC7 (flags : Nat) (gridHeight gridMaxHeight : ℚ) (r : BinaryReader)
    (hnh : flags &&& MAP_HEIGHT_NO_HEIGHT = 0) :
    (flags &&& MAP_HEIGHT_AS_INT8 ≠ 0 →
      parseHeightValues flags gridHeight gridMaxHeight r =
        (readLoop readUint8 (129 * 129) r).bind fun v9r =>
        (readLoop readUint8 (128 * 128) v9r.2).map fun v8r =>
          (some (v9r.1.map fun v : Nat => (v : ℚ) * (gridMaxHeight - gridHeight) / 255 + gridHeight,
                 v8r.1.map fun v : Nat => (v : ℚ) * (gridMaxHeight - gridHeight) / 255 + gridHeight),
            v8r.2)) ∧
    (flags &&& MAP_HEIGHT_AS_INT8 = 0 → flags &&& MAP_HEIGHT_AS_INT16 ≠ 0 →
      parseHeightValues flags gridHeight gridMaxHeight r =
        (readLoop readUint16 (129 * 129) r).bind fun v9r =>
        (readLoop readUint16 (128 * 128) v9r.2).map fun v8r =>
          (some (v9r.1.map fun v : Nat => (v : ℚ) * (gridMaxHeight - gridHeight) / 65535 + gridHeight,
                 v8r.1.map fun v : Nat => (v : ℚ) * (gridMaxHeight - gridHeight) / 65535 + gridHeight),
            v8r.2)) ∧
    (flags &&& MAP_HEIGHT_AS_INT8 = 0 → flags &&& MAP_HEIGHT_AS_INT16 = 0 →
      parseHeightValues flags gridHeight gridMaxHeight r =
        (readLoop readFloat32 (129 * 129) r).bind fun v9r =>
        (readLoop readFloat32 (128 * 128) v9r.2).map fun v8r =>
          (some (v9r.1.map f32ValQ, v8r.1.map f32ValQ), v8r.2)) := by
  refine ⟨?_, ?_, ?_⟩
  · intro h8
    unfold parseHeightValues
    rw [if_neg (by simp [hnh]), if_pos h8]
    simp only [mul_div_assoc]
  · intro h8 h16
    unfold parseHeightValues
    rw [if_neg (by simp [hnh]), if_neg (by simp [h8]), if_pos h16]
    simp only [mul_div_assoc]
  · intro h8 h16
    unfold parseHeightValues
    rw [if_neg (by simp [hnh]), if_neg (by simp [h8]), if_neg (by simp [h16])]

/-- C7 witness: flags 6 (both integer bits set) select the int8 encoding,
and with `gridHeight = 0`, `gridMaxHeight = 255` every raw byte of 128
decodes to exactly 128. -/
theorem claimC7_witness :
    (6 &&& MAP_HEIGHT_NO_HEIGHT = 0) ∧ (6 &&& MAP_HEIGHT_AS_INT16 ≠ 0) ∧
    (6 &&& MAP_HEIGHT_AS_INT8 ≠ 0) ∧
    parseHeightValues 6 0 255 ⟨List.replicate (129 * 129 + 128 * 128) 128, 0⟩ =
      some (some (List.replicate (129 * 129) (128 : ℚ), List.replicate (128 * 128) (128 : ℚ)),
        ⟨List.replicate (129 * 129 + 128 * 128) 128, 129 * 129 + 128 * 128⟩) ∧
    ((128 : ℚ) * (255 - 0) / 255 + 0 = 128) := by
  refine ⟨by decide, by decide, by decide, ?_, by norm_num⟩
  have h := (claimC7 6 0 255 ⟨List.replicate (129 * 129 + 128 * 128) 128, 0⟩
    (by decide)).1 (by decide)
  rw [readLoop_readUint8_replicate (129 * 129) (129 * 129 + 128 * 128) 128 0
    (by norm_num)] at h
  rw [Option.some_bind] at h
  have h2 : parseHeightValues 6 0 255 ⟨List.replicate (129 * 129 + 128 * 128) 128, 0⟩ =
      Option.map
        (fun v8r =>
          (some
              (List.map (fun v : Nat => (v : ℚ) * (255 - 0) / 255 + 0)
                  (List.replicate (129 * 129) 128),
                List.map (fun v : Nat => (v : ℚ) * (255 - 0) / 255 + 0) v8r.1),
            v8r.2))
        (readLoop readUint8 (128 * 128)
          ⟨List.replicate (129 * 129 + 128 * 128) 128, 0 + 129 * 129⟩) := h
  rw [readLoop_readUint8_replicate (128 * 128) (129 * 129 + 128 * 128) 128 (0 + 129 * 129)
    (by norm_num)] at h2
  rw [Option.map_some'] at h2
  have h3 : parseHeightValues 6 0 255 ⟨List.replicate (129 * 129 + 128 * 128) 128, 0⟩ =
      some (some
          (List.map (fun v : Nat => (v : ℚ) * (255 - 0) / 255 + 0)
              (List.replicate (129 * 129) 128),
            List.map (fun v : Nat => (v : ℚ) * (255 - 0) / 255 + 0)
              (List.replicate (128 * 128) 128)),
        ⟨List.replicate (129 * 129 + 128 * 128) 128, 0 + 129 * 129 + 128 * 128⟩) := h2
  rw [List.map_replicate, List.map_replicate] at h3
  rw [show ((128 : Nat) : ℚ) * (255 - 0) / 255 + 0 = (128 : ℚ) from by norm_num] at h3
  rw [Nat.zero_add] at h3
  exact h3
